import Mathlib

/-!
Verification of the jikan-api-proxy server (src/index.js).

The development shallowly embeds the data model and the operations of the
proxy: the TTL cache backed by a JavaScript Map (lines 31-137), the
rate-limited dispatcher (lines 139-173), the per-endpoint cache-key
construction (lines 217-258), the disk snapshot routine (lines 58-74), the
hourly sweep (lines 577-592) and the response envelope (lines 545-552).
Times and durations are in milliseconds, modelled as natural numbers.
-/

namespace JikanProxy

/-- JSON values, as produced by response.json() and stored in the cache.
Objects are ordered field lists, matching JavaScript object semantics. -/
inductive J where
  | null : J
  | bool (b : Bool) : J
  | num (n : Int) : J
  | str (s : String) : J
  | arr (elems : List J) : J
  | obj (fields : List (String × J)) : J

/-- One cache entry, as built at line 125: cache.set stores the triple
of timestamp, duration and data. -/
structure CacheEntry where
  timestamp : Nat
  duration : Nat
  data : J

/-- The in-memory cache: a JavaScript Map from string keys to entries
(line 32), modelled as an ordered association list with unique keys. -/
abbrev Cache := List (String × CacheEntry)

/-- Map.prototype.get / Map.prototype.has: first binding for the key. -/
def cacheGet : Cache → String → Option CacheEntry
  | [], _ => none
  | (k1, e) :: rest, k => if k1 = k then some e else cacheGet rest k

/-- Map.prototype.set: replace in place when the key exists, else append. -/
def cacheSet : Cache → String → CacheEntry → Cache
  | [], k, e => [(k, e)]
  | (k1, e1) :: rest, k, e =>
      if k1 = k then (k1, e) :: rest else (k1, e1) :: cacheSet rest k e

/-- Map.prototype.delete. -/
def cacheDelete : Cache → String → Cache
  | [], _ => []
  | (k1, e1) :: rest, k =>
      if k1 = k then rest else (k1, e1) :: cacheDelete rest k

/-- The Map invariant: keys are distinct. -/
def keysNodup (c : Cache) : Prop := (c.map Prod.fst).Nodup

/-- put, embedded from fetchWithCache lines 125-129: insert or overwrite the
entry with storedAt = now. -/
def put (c : Cache) (key : String) (value : J) (ttl : Nat) (now : Nat) : Cache :=
  cacheSet c key ⟨now, ttl, value⟩

/-- get with lazy expiry, embedded from fetchWithCache lines 99-109: a
present, unexpired entry (now - timestamp < duration) is returned; an
expired entry is deleted and the lookup reports absent. -/
def get (c : Cache) (key : String) (now : Nat) : Option J × Cache :=
  match cacheGet c key with
  | some e =>
      if now - e.timestamp < e.duration then (some e.data, c)
      else (none, cacheDelete c key)
  | none => (none, c)

/-- Default TTL, line 8: 60 * 60 * 1000 milliseconds. -/
def CACHE_DURATION : Nat := 60 * 60 * 1000

/-- Upstream base URL, line 6. -/
def BASE_URL : String := "https://api.jikan.moe/v4"

/-- UTF-8 encoding of one code point, used by both the form encoder and the
base64 file-name encoder. -/
def utf8Bytes (c : Nat) : List Nat :=
  if c < 128 then [c]
  else if c < 2048 then [192 + c / 64, 128 + c % 64]
  else if c < 65536 then [224 + c / 4096, 128 + c / 64 % 64, 128 + c % 64]
  else [240 + c / 262144, 128 + c / 4096 % 64, 128 + c / 64 % 64, 128 + c % 64]

def hexDigit (n : Nat) : Char := ("0123456789ABCDEF".toList).getD n '?'

/-- Percent-encoding of a single byte. -/
def pctByte (b : Nat) : String := String.mk ['%', hexDigit (b / 16), hexDigit (b % 16)]

/-- application/x-www-form-urlencoded encoding of one character, as
performed by URLSearchParams.toString(). -/
def formEncodeChar (c : Char) : String :=
  if c = ' ' then "+"
  else if c.isAlphanum || c = '*' || c = '-' || c = '.' || c = '_' then String.mk [c]
  else String.join ((utf8Bytes c.toNat).map pctByte)

def formEncode (s : String) : String := String.join (s.toList.map formEncodeChar)

/-- URLSearchParams.toString() on an ordered parameter list: pairs are
serialized in insertion order, lines 228-231 build the list by appending
params.entries() in arrival order. -/
def queryToString (ps : List (String × String)) : String :=
  String.intercalate "&" (ps.map (fun kv => formEncode kv.1 ++ "=" ++ formEncode kv.2))

/-- Cache key for an anime search, line 235: the query string in insertion
order, prefixed with a constant tag. -/
def animeSearchKey (ps : List (String × String)) : String :=
  "anime_search_" ++ queryToString ps

/-- URLSearchParams.get: first value bound to the key, null when absent. -/
def paramsGet : List (String × String) → String → Option String
  | [], _ => none
  | (k1, v) :: rest, k => if k1 = k then some v else paramsGet rest k

/-- Observable outcome of one fetchWithCache call: the returned or thrown
value, the cache afterwards, and the statistics deltas of lines 102, 112
plus the number of upstream fetch calls (line 114). -/
structure FetchOutcome where
  result : Except String J
  cache : Cache
  hits : Nat
  misses : Nat
  upstreamCalls : Nat

/-- Miss path of fetchWithCache, lines 112-136: count the miss, call the
upstream once; a non-ok response throws and caches nothing, an ok response
is stored via cache.set with storedAt = now. The upstream network is an
oracle from URL to either an error or a JSON body. -/
def fetchFresh (upstream : String → Except String J) (c : Cache) (now : Nat)
    (url key : String) (dur : Nat) : FetchOutcome :=
  match upstream url with
  | Except.error msg => ⟨Except.error msg, c, 0, 1, 1⟩
  | Except.ok d => ⟨Except.ok d, put c key d dur now, 0, 1, 1⟩

/-- fetchWithCache, lines 95-137: consult the cache with lazy expiry; a hit
returns the cached payload with no upstream call, otherwise fall through to
the miss path (with the expired entry already deleted by get). -/
def fetchWithCache (upstream : String → Except String J) (c : Cache) (now : Nat)
    (url key : String) (dur : Nat) : FetchOutcome :=
  match get c key now with
  | (some d, c1) => ⟨Except.ok d, c1, 1, 0, 0⟩
  | (none, c1) => fetchFresh upstream c1 now url key dur

/-- handlers.anime, lines 219-237: an id parameter (JavaScript-truthy, so
present and nonempty) selects the by-id URL and key, otherwise the search
URL and key are built from the query string in insertion order. -/
def animeHandler (upstream : String → Except String J) (c : Cache) (now : Nat)
    (ps : List (String × String)) : FetchOutcome :=
  match paramsGet ps "id" with
  | some id =>
      if id = "" then
        fetchWithCache upstream c now (BASE_URL ++ "/anime?" ++ queryToString ps)
          (animeSearchKey ps) CACHE_DURATION
      else
        fetchWithCache upstream c now (BASE_URL ++ "/anime/" ++ id)
          ("anime_" ++ id) CACHE_DURATION
  | none =>
      fetchWithCache upstream c now (BASE_URL ++ "/anime?" ++ queryToString ps)
        (animeSearchKey ps) CACHE_DURATION

/-- Observable outcome of the server handling one request to a known
endpoint, lines 539-543: the handler result, the new cache, and the number
of enqueueRequest submissions made for this request. -/
structure ServeResult where
  response : Except String J
  cache : Cache
  submissions : Nat
  hits : Nat
  misses : Nat
  upstreamCalls : Nat

/-- The server fetch handler on the anime endpoint, lines 539-543: the whole
handler call, cache lookup included, is wrapped in exactly one
enqueueRequest submission. -/
def serveAnime (upstream : String → Except String J) (c : Cache) (now : Nat)
    (ps : List (String × String)) : ServeResult :=
  let fo := animeHandler upstream c now ps
  ⟨fo.result, fo.cache, 1, fo.hits, fo.misses, fo.upstreamCalls⟩

/-- Two successive requests to the same endpoint with the same parameters,
the second one at a later time against the cache left by the first. -/
def serveAnimeTwice (upstream : String → Except String J) (c : Cache)
    (now1 now2 : Nat) (ps : List (String × String)) : ServeResult × ServeResult :=
  let r1 := serveAnime upstream c now1 ps
  (r1, serveAnime upstream r1.cache now2 ps)

/-- The hourly cleanup timer, lines 578-592: iterate the cache and delete
every entry with now - timestamp strictly greater than duration. -/
def sweep (c : Cache) (now : Nat) : Cache :=
  c.filter (fun kv => !(now - kv.2.timestamp > kv.2.duration))

/-- The base64 alphabet used by Buffer.toString applied with base64. -/
def base64Table : List Char :=
  "ABCDEFGHIJKLMNOPQRSTUVWXYZabcdefghijklmnopqrstuvwxyz0123456789+/".toList

def b64Char (n : Nat) : Char := base64Table.getD n '?'

/-- Standard base64 of a byte list, with = padding. -/
def b64Encode : List Nat → String
  | [] => ""
  | [b1] => String.mk [b64Char (b1 / 4), b64Char (b1 % 4 * 16), '=', '=']
  | [b1, b2] =>
      String.mk [b64Char (b1 / 4), b64Char (b1 % 4 * 16 + b2 / 16),
        b64Char (b2 % 16 * 4), '=']
  | b1 :: b2 :: b3 :: rest =>
      String.mk [b64Char (b1 / 4), b64Char (b1 % 4 * 16 + b2 / 16),
        b64Char (b2 % 16 * 4 + b3 / 64), b64Char (b3 % 64)] ++ b64Encode rest

/-- UTF-8 bytes of a string, as produced by Buffer.from. -/
def strBytes (s : String) : List Nat :=
  (s.toList.map (fun ch => utf8Bytes ch.toNat)).flatten

/-- Per-entry cache file name, line 67-68: base64 of the key plus the json
suffix. -/
def cacheFileName (key : String) : String := b64Encode (strBytes key) ++ ".json"

/-- The file writes attempted by saveCacheToDisk in order, lines 59-69: the
index file first, then one file per cache entry in map order. -/
def plannedFiles (c : Cache) : List String :=
  "cache-index.json" :: c.map (fun kv => cacheFileName kv.1)

/-- Sequential writeFileSync calls under the single try of lines 60-71: a
throwing write transfers control to the catch at line 71, so nothing after
the first failure is written. The fails oracle says which file writes
throw; the result is the list of files actually written. -/
def performWrites (fails : String → Bool) : List String → List String
  | [] => []
  | f :: rest => if fails f then [] else f :: performWrites fails rest

/-- saveCacheToDisk, lines 59-74, returning the files it manages to write. -/
def saveCacheToDisk (fails : String → Bool) (c : Cache) : List String :=
  performWrites fails (plannedFiles c)

/-- One JavaScript object-literal assignment: a later value for an existing
key overwrites in place, a new key is appended. -/
def objInsert : List (String × J) → String → J → List (String × J)
  | [], k, v => [(k, v)]
  | (k1, v1) :: rest, k, v =>
      if k1 = k then (k1, v) :: rest else (k1, v1) :: objInsert rest k v

/-- Property lookup on an object built by objInsert. -/
def objGet : List (String × J) → String → Option J
  | [], _ => none
  | (k1, v1) :: rest, k => if k1 = k then some v1 else objGet rest k

/-- An object literal: fields assigned left to right, later duplicates
winning, exactly the semantics of spread inside a literal. -/
def mkObj (fields : List (String × J)) : List (String × J) :=
  fields.foldl (fun o kv => objInsert o kv.1 kv.2) []

/-- Last binding of a key in a raw field list. -/
def lookupLast : List (String × J) → String → Option J
  | [], _ => none
  | (k1, v1) :: rest, k =>
      match lookupLast rest k with
      | some v => some v
      | none => if k1 = k then some v1 else none

/-- The response envelope of lines 546-552: four metadata fields followed by
the spread of the upstream payload, whose fields therefore overwrite
metadata fields of the same name. The cached flag is computed from the
endpoint name alone. -/
def enhancedData (endpoint : String) (ts : String) (payload : List (String × J)) :
    List (String × J) :=
  mkObj ([("source", J.str "Jikan API Proxy"),
          ("cached", J.bool (decide (endpoint ≠ "random") && decide (endpoint ≠ "stats"))),
          ("timestamp", J.str ts),
          ("endpoint", J.str endpoint)] ++ payload)

/-- Start time of the j-th batch of the dispatcher drain loop, lines
144-166: batch 0 starts as soon as the loop is entered; after a batch the
loop waits for all its tasks to settle (the batch execution time d j) and
then sleeps a full 1000 ms window before splicing the next batch. -/
def batchStart (d : Nat → Nat) : Nat → Nat
  | 0 => 0
  | j + 1 => batchStart d j + d j + 1000

/-- Number of tasks in the batches before batch j. -/
def csum (sizes : Nat → Nat) : Nat → Nat
  | 0 => 0
  | j + 1 => csum sizes j + sizes j

/-- Running one dispatched task, lines 150-157: the closure is called once;
its value resolves the promise and its error rejects it, each task settled
independently of its siblings. -/
def settle (fn : Unit → Except String J) : Except String J := fn ()

/-- The drain loop of processQueue over a queue of thunks, lines 144-166:
splice off at most MAX_REQUESTS_PER_SECOND = 4 tasks, settle each of them,
then recurse on the remainder of the queue. -/
def processQueueModel : List (Unit → Except String J) → List (Except String J)
  | [] => []
  | t :: rest =>
      ((t :: rest).take 4).map settle ++ processQueueModel ((t :: rest).drop 4)
  termination_by q => q.length
  decreasing_by simp [List.length_drop]; omega

/-- A concrete upstream oracle: the anime-by-id URL for id 5 answers with a
fixed JSON body, every other URL fails. -/
def upstreamEx : String → Except String J := fun url =>
  if url = BASE_URL ++ "/anime/5" then Except.ok (J.obj [("data", J.str "naruto")])
  else Except.error "404"

/-- Two quick successive requests for anime id 5 against an empty cache:
the first at time 0, the second at time 1. -/
def serveTwiceEx : ServeResult × ServeResult :=
  serveAnimeTwice upstreamEx [] 0 1 [("id", "5")]

/-- A concrete cache entry stored at time 0 with a 5 ms TTL. -/
def entryEx : CacheEntry := ⟨0, 5, J.null⟩

/-! ## Helper lemmas about the cache operations -/

lemma cacheGet_cacheSet_self (c : Cache) (k : String) (e : CacheEntry) :
    cacheGet (cacheSet c k e) k = some e := by
  induction c with
  | nil => simp [cacheSet, cacheGet]
  | cons kv rest ih =>
    obtain ⟨k1, e1⟩ := kv
    by_cases h : k1 = k
    · simp [cacheSet, h, cacheGet]
    · simp [cacheSet, h, cacheGet, ih]

lemma cacheGet_eq_none_of_not_mem {c : Cache} {k : String}
    (h : k ∉ c.map Prod.fst) : cacheGet c k = none := by
  induction c with
  | nil => rfl
  | cons kv rest ih =>
    obtain ⟨k1, e1⟩ := kv
    simp only [List.map_cons, List.mem_cons, not_or] at h
    have h1 : k1 ≠ k := fun hh => h.1 hh.symm
    simp [cacheGet, h1, ih h.2]

lemma cacheGet_cacheDelete_cacheSet {c : Cache} (k : String) (e : CacheEntry)
    (hnd : keysNodup c) : cacheGet (cacheDelete (cacheSet c k e) k) k = none := by
  induction c with
  | nil => simp [cacheSet, cacheDelete, cacheGet]
  | cons kv rest ih =>
    obtain ⟨k1, e1⟩ := kv
    unfold keysNodup at hnd
    simp only [List.map_cons, List.nodup_cons] at hnd
    obtain ⟨hk1, hrest⟩ := hnd
    by_cases h : k1 = k
    · subst h
      simp only [cacheSet, if_pos rfl, cacheDelete]
      exact cacheGet_eq_none_of_not_mem hk1
    · simp only [cacheSet, if_neg h, cacheDelete, cacheGet]
      exact ih hrest

lemma string_append_left_cancel {a b c : String} (h : a ++ b = a ++ c) : b = c := by
  have h2 := congrArg String.data h
  simp only [String.data_append] at h2
  exact String.ext (List.append_cancel_left h2)

/-! ## Helper lemmas about the sweep -/

lemma cacheGet_sweep (c : Cache) (now : Nat) (k : String) (hnd : keysNodup c) :
    cacheGet (sweep c now) k =
      match cacheGet c k with
      | none => none
      | some e => if now - e.timestamp > e.duration then none else some e := by
  induction c with
  | nil => rfl
  | cons kv rest ih =>
    obtain ⟨k1, e1⟩ := kv
    unfold keysNodup at hnd
    simp only [List.map_cons, List.nodup_cons] at hnd
    obtain ⟨hk1, hrest⟩ := hnd
    have ihr := ih hrest
    unfold sweep at ihr ⊢
    rw [List.filter_cons]
    by_cases hexp : e1.duration < now - e1.timestamp
    · by_cases h : k1 = k
      · subst h
        simp [hexp, ihr, cacheGet, cacheGet_eq_none_of_not_mem hk1]
      · simp [hexp, ihr, cacheGet, h]
    · by_cases h : k1 = k
      · subst h
        simp [hexp, cacheGet]
      · simp [hexp, cacheGet, h, ihr]

/-! ## Helper lemmas about the disk snapshot -/

lemma performWrites_eq_takeWhile (fails : String → Bool) (l : List String) :
    performWrites fails l = l.takeWhile (fun f => !fails f) := by
  induction l with
  | nil => rfl
  | cons f rest ih =>
    by_cases h : fails f = true <;>
      simp [performWrites, List.takeWhile_cons, h, ih]

/-! ## Helper lemmas about the response envelope -/

lemma objGet_objInsert (o : List (String × J)) (k : String) (v : J) (k2 : String) :
    objGet (objInsert o k v) k2 = if k = k2 then some v else objGet o k2 := by
  induction o with
  | nil =>
    by_cases h : k = k2 <;> simp [objInsert, objGet, h]
  | cons kv rest ih =>
    obtain ⟨k1, v1⟩ := kv
    by_cases h1 : k1 = k
    · subst h1
      by_cases h2 : k1 = k2
      · subst h2
        simp [objInsert, objGet]
      · simp [objInsert, objGet, h2]
    · have h1s : ¬ k = k1 := fun hh => h1 hh.symm
      by_cases h2 : k1 = k2
      · subst h2
        simp [objInsert, h1, objGet, h1s]
      · simp [objInsert, h1, objGet, h2, ih]

lemma objGet_foldl (l o : List (String × J)) (k : String) :
    objGet (l.foldl (fun acc kv => objInsert acc kv.1 kv.2) o) k =
      match lookupLast l k with
      | some v => some v
      | none => objGet o k := by
  induction l generalizing o with
  | nil => rfl
  | cons kv rest ih =>
    obtain ⟨k1, v1⟩ := kv
    rw [List.foldl_cons, ih]
    cases hl : lookupLast rest k with
    | some v => simp [lookupLast, hl]
    | none =>
      rw [objGet_objInsert]
      simp only [lookupLast, hl]
      by_cases h : k1 = k <;> simp [h]

lemma objGet_mkObj (l : List (String × J)) (k : String) :
    objGet (mkObj l) k =
      match lookupLast l k with
      | some v => some v
      | none => none := by
  unfold mkObj
  rw [objGet_foldl]
  cases lookupLast l k <;> rfl

lemma lookupLast_append (a b : List (String × J)) (k : String) :
    lookupLast (a ++ b) k =
      match lookupLast b k with
      | some v => some v
      | none => lookupLast a k := by
  have heq : ∀ (k1 : String) (v1 : J) (l : List (String × J)),
      lookupLast ((k1, v1) :: l) k =
        match lookupLast l k with
        | some v => some v
        | none => if k1 = k then some v1 else none := fun _ _ _ => rfl
  induction a with
  | nil =>
    rw [List.nil_append]
    cases lookupLast b k <;> rfl
  | cons kv rest ih =>
    obtain ⟨k1, v1⟩ := kv
    rw [List.cons_append, heq k1 v1 (rest ++ b), heq k1 v1 rest, ih]
    cases hb : lookupLast b k <;> cases hr : lookupLast rest k <;> simp

/-! ## Helper lemmas about the dispatcher -/

lemma batchStart_le (d : Nat → Nat) (j k : Nat) :
    batchStart d j ≤ batchStart d (j + k) := by
  induction k with
  | zero => exact le_refl _
  | succ k ih =>
    have h : batchStart d (j + (k + 1)) = batchStart d (j + k) + d (j + k) + 1000 := rfl
    omega

lemma batchStart_gap (d : Nat → Nat) {j j2 : Nat} (h : j < j2) :
    batchStart d j + 1000 ≤ batchStart d j2 := by
  obtain ⟨k, rfl⟩ : ∃ k, j2 = (j + 1) + k := ⟨j2 - (j + 1), by omega⟩
  have h1 := batchStart_le d (j + 1) k
  have h2 : batchStart d (j + 1) = batchStart d j + d j + 1000 := rfl
  omega

lemma processQueueModel_eq_settleAll (q : List (Unit → Except String J)) :
    processQueueModel q = q.map settle := by
  have H : ∀ n (q : List (Unit → Except String J)), q.length ≤ n →
      processQueueModel q = q.map settle := by
    intro n
    induction n with
    | zero =>
      intro q hq
      match q with
      | [] => simp [processQueueModel]
      | t :: rest => simp at hq
    | succ n ih =>
      intro q hq
      match q with
      | [] => simp [processQueueModel]
      | t :: rest =>
        rw [processQueueModel]
        rw [ih ((t :: rest).drop 4)
          (by simp only [List.length_drop, List.length_cons] at hq ⊢; omega)]
        rw [← List.map_append, List.take_append_drop]
  exact H q.length q (le_refl _)

/-! ## Claim theorems -/

/-- C1, counterexample: in the two-quick-requests scenario the first request
is a miss with one upstream call, the second is a hit with no upstream call
and the same payload, yet the hit still makes a Dispatcher submission and
the two requests together make two submissions, not one: line 541 wraps the
whole handler call, cache lookup included, in enqueueRequest. -/
theorem C1_counterexample :
    serveTwiceEx.1.misses = 1 ∧ serveTwiceEx.1.upstreamCalls = 1 ∧
    serveTwiceEx.2.hits = 1 ∧ serveTwiceEx.2.upstreamCalls = 0 ∧
    serveTwiceEx.2.response = serveTwiceEx.1.response ∧
    serveTwiceEx.2.submissions ≠ 0 ∧
    serveTwiceEx.1.submissions + serveTwiceEx.2.submissions ≠ 1 :=
  ⟨rfl, rfl, rfl, rfl, rfl, by decide, by decide⟩

/-- C1, amended: every request to a known endpoint is submitted to the
rate-limited Dispatcher exactly once, hit or miss alike; the cache is
consulted inside the dispatched task, so two quick successive requests to
the same cacheable endpoint with identical parameters cause exactly two
Dispatcher submissions but only one upstream fetch, the second request
being served from the cache. -/
theorem C1_amended :
    (∀ (u : String → Except String J) (c : Cache) (now : Nat)
        (ps : List (String × String)), (serveAnime u c now ps).submissions = 1) ∧
    serveTwiceEx.1.submissions + serveTwiceEx.2.submissions = 2 ∧
    serveTwiceEx.1.upstreamCalls + serveTwiceEx.2.upstreamCalls = 1 ∧
    serveTwiceEx.2.hits = 1 :=
  ⟨fun _ _ _ _ => rfl, rfl, rfl, rfl⟩

/-- C2, counterexample: the parameter lists of q=naruto page=1 and of
page=1 q=naruto are equal as multisets, yet the resolver produces two
different cache keys, and after the first request is cached a lookup under
the second key misses. -/
theorem C2_counterexample :
    ([("q", "naruto"), ("page", "1")] : List (String × String)).Perm
      [("page", "1"), ("q", "naruto")] ∧
    animeSearchKey [("q", "naruto"), ("page", "1")] ≠
      animeSearchKey [("page", "1"), ("q", "naruto")] ∧
    (get (put [] (animeSearchKey [("q", "naruto"), ("page", "1")])
        (J.str "payload") CACHE_DURATION 0)
      (animeSearchKey [("page", "1"), ("q", "naruto")]) 1).fst = none :=
  ⟨by decide, by decide, rfl⟩

/-- C2, amended: the resolver's cache key is the query string serialized in
parameter insertion order under a constant tag, so two requests produce the
same cache key exactly when their insertion-order serializations coincide;
multiset-equal parameter lists in different insertion orders generally
produce different keys and the second request is then a cache miss. -/
theorem C2_amended (ps1 ps2 : List (String × String)) :
    animeSearchKey ps1 = animeSearchKey ps2 ↔ queryToString ps1 = queryToString ps2 := by
  unfold animeSearchKey
  constructor
  · exact string_append_left_cancel
  · intro h
    rw [h]

/-- C4: the dispatcher settles every submitted task exactly once and in
submission order: the outcome list of the drain loop is exactly the
one-call-per-task settlement of the queue, so each succeeding task resolves
with its result, each failing task rejects with its error, a failure does
not prevent or cancel any sibling, and no task runs twice; in particular,
of three tasks whose second always fails, tasks one and three resolve and
task two rejects. -/
theorem C4_exactly_once :
    (∀ q : List (Unit → Except String J), processQueueModel q = q.map settle) ∧
    processQueueModel
        [fun _ => Except.ok (J.num 1), fun _ => Except.error "task2 fails",
         fun _ => Except.ok (J.num 3)] =
      [Except.ok (J.num 1), Except.error "task2 fails", Except.ok (J.num 3)] := by
  refine ⟨processQueueModel_eq_settleAll, ?_⟩
  rw [processQueueModel_eq_settleAll]
  rfl

/-- C5, counterexample: with ttl = 0 the freshness test of line 101 is
0 < 0 and fails, so a get immediately after put returns absent, not the
stored value. -/
theorem C5_counterexample :
    ¬ ((get (put [] "k" J.null 0 7) "k" 7).fst = some J.null) := by
  intro h
  exact Option.noConfusion h

/-- C5, amended: for every key, value, positive ttl and cache, a get of the
key performed immediately after put (at the very same clock value) returns
the stored value. -/
theorem C5_amended (c : Cache) (key : String) (value : J) (ttl now : Nat)
    (h : 0 < ttl) : (get (put c key value ttl now) key now).fst = some value := by
  unfold get put
  rw [cacheGet_cacheSet_self]
  simp [Nat.sub_self, h]

/-- C5, witness: instantiating the amended theorem at ttl = 5. -/
theorem C5_witness : 0 < 5 ∧ (get (put [] "k" J.null 5 7) "k" 7).fst = some J.null :=
  ⟨by decide, C5_amended [] "k" J.null 5 7 (by decide)⟩

/-- C6: after put, the entry is present; a get t milliseconds later with
t at least the ttl returns absent, and as a side effect of that lookup the
entry is removed from the map (lines 105-108). -/
theorem C6_expired_get_removes (c : Cache) (key : String) (value : J)
    (ttl t now : Nat) (hnd : keysNodup c) (ht : ttl ≤ t) :
    cacheGet (put c key value ttl now) key = some ⟨now, ttl, value⟩ ∧
    (get (put c key value ttl now) key (now + t)).fst = none ∧
    cacheGet ((get (put c key value ttl now) key (now + t)).snd) key = none := by
  have hget := cacheGet_cacheSet_self c key ⟨now, ttl, value⟩
  have hlt : ¬ t < ttl := by omega
  refine ⟨hget, ?_, ?_⟩
  · show (get (cacheSet c key ⟨now, ttl, value⟩) key (now + t)).fst = none
    unfold get
    rw [hget]
    simp [hlt]
  · show cacheGet ((get (cacheSet c key ⟨now, ttl, value⟩) key (now + t)).snd) key = none
    unfold get
    rw [hget]
    simp [hlt]
    exact cacheGet_cacheDelete_cacheSet key _ hnd

/-- C6, witness: instantiating at an empty cache, ttl = 5 and t = 7. -/
theorem C6_witness :
    keysNodup [] ∧ 5 ≤ 7 ∧
    (cacheGet (put [] "k" J.null 5 100) "k" = some ⟨100, 5, J.null⟩ ∧
      (get (put [] "k" J.null 5 100) "k" (100 + 7)).fst = none ∧
      cacheGet ((get (put [] "k" J.null 5 100) "k" (100 + 7)).snd) "k" = none) :=
  ⟨by simp [keysNodup], by decide,
    C6_expired_get_removes [] "k" J.null 5 7 100 (by simp [keysNodup]) (by decide)⟩

/-- C7, counterexample: an entry stored at time 0 with ttl 5 has age
exactly 5 at time 5, so the claim says the sweep removes it, but the
sweep of line 583 uses a strict comparison and leaves it in place. -/
theorem C7_counterexample :
    sweep [("k", entryEx)] 5 = [("k", entryEx)] ∧ 5 ≤ 5 - entryEx.timestamp :=
  ⟨rfl, by decide⟩

/-- C7, amended: the sweep removes exactly the entries whose age is
strictly greater than their ttl (now - storedAt > ttl), leaving every entry
with now - storedAt ≤ ttl untouched; an absent key stays absent. -/
theorem C7_amended (c : Cache) (now : Nat) (k : String) (hnd : keysNodup c) :
    cacheGet (sweep c now) k =
      match cacheGet c k with
      | none => none
      | some e => if now - e.timestamp > e.duration then none else some e :=
  cacheGet_sweep c now k hnd

/-- C7, witness: instantiating the amended theorem at a one-entry cache
whose entry is strictly past its ttl at time 10, so the sweep removes it. -/
theorem C7_witness :
    keysNodup [("k", entryEx)] ∧
    cacheGet (sweep [("k", entryEx)] 10) "k" =
      (match cacheGet [("k", entryEx)] "k" with
      | none => none
      | some e => if 10 - e.timestamp > e.duration then none else some e) :=
  ⟨by simp [keysNodup], C7_amended [("k", entryEx)] 10 "k" (by simp [keysNodup])⟩

/-- C8, counterexample: a cache with entries a and b where only the write
of the file of entry a throws: entry b's write would succeed, yet only the
index file gets written, because the single try of lines 60-71 catches the
throw outside the loop and abandons the remaining entries. -/
theorem C8_counterexample :
    saveCacheToDisk (fun f => f == cacheFileName "a") [("a", entryEx), ("b", entryEx)] =
      ["cache-index.json"] ∧
    (fun f => f == cacheFileName "a") (cacheFileName "b") = false ∧
    cacheFileName "b" ∉
      saveCacheToDisk (fun f => f == cacheFileName "a") [("a", entryEx), ("b", entryEx)] :=
  ⟨rfl, rfl, by decide⟩

/-- C8, amended: a failure to write one entry's file aborts all the writes
that come after it: the files actually written are exactly the longest
prefix of the planned sequence (index file first, then one file per entry
in map order) on which the write does not throw. -/
theorem C8_amended (fails : String → Bool) (c : Cache) :
    saveCacheToDisk fails c = (plannedFiles c).takeWhile (fun f => !fails f) :=
  performWrites_eq_takeWhile fails (plannedFiles c)

/-- C9, counterexample: for the anime endpoint and an upstream payload that
itself carries a top-level cached field holding false, the envelope field
is false, not true: the spread at line 551 lets the payload overwrite the
metadata computed at line 548. -/
theorem C9_counterexample :
    objGet (enhancedData "anime" "T" [("cached", J.bool false)]) "cached" ≠
      some (J.bool true) ∧
    "anime" ≠ "random" ∧ "anime" ≠ "stats" := by
  refine ⟨?_, by decide, by decide⟩
  have h : objGet (enhancedData "anime" "T" [("cached", J.bool false)]) "cached" =
      some (J.bool false) := rfl
  rw [h]
  simp

/-- C9, amended: for every successful response to an endpoint other than
random and stats whose upstream payload has no top-level cached field, the
envelope's cached field is true, computed at line 548 solely from the
endpoint name and thus independent of whether the payload came from the
cache or from a fresh upstream fetch. -/
theorem C9_amended (endpoint ts : String) (payload : List (String × J))
    (h1 : endpoint ≠ "random") (h2 : endpoint ≠ "stats")
    (h3 : lookupLast payload "cached" = none) :
    objGet (enhancedData endpoint ts payload) "cached" = some (J.bool true) := by
  unfold enhancedData
  rw [objGet_mkObj, lookupLast_append, h3]
  simp [lookupLast, h1, h2]

/-- C9, witness: instantiating the amended theorem at the anime endpoint
and a payload with a single data field. -/
theorem C9_witness :
    ("anime" ≠ "random" ∧ "anime" ≠ "stats" ∧
      lookupLast [("data", J.str "x")] "cached" = none) ∧
    objGet (enhancedData "anime" "T" [("data", J.str "x")]) "cached" =
      some (J.bool true) :=
  ⟨⟨by decide, by decide, rfl⟩,
    C9_amended "anime" "T" [("data", J.str "x")] (by decide) (by decide) rfl⟩

/-- C10: when the upstream payload carries a top-level field named source,
cached, timestamp or endpoint, the value found in the response envelope
under that name is the payload's value, not the proxy metadata: the spread
at line 551 comes after the metadata fields. -/
theorem C10_payload_overwrites (endpoint ts : String) (payload : List (String × J))
    (name : String) (v : J)
    (_hname : name ∈ ["source", "cached", "timestamp", "endpoint"])
    (hv : lookupLast payload name = some v) :
    objGet (enhancedData endpoint ts payload) name = some v := by
  unfold enhancedData
  rw [objGet_mkObj, lookupLast_append, hv]

/-- C10, witness: a payload with cached bound to false overwrites the
metadata cached flag. -/
theorem C10_witness :
    ("cached" ∈ ["source", "cached", "timestamp", "endpoint"] ∧
      lookupLast [("cached", J.bool false)] "cached" = some (J.bool false)) ∧
    objGet (enhancedData "anime" "T" [("cached", J.bool false)]) "cached" =
      some (J.bool false) :=
  ⟨⟨by decide, rfl⟩,
    C10_payload_overwrites "anime" "T" [("cached", J.bool false)] "cached"
      (J.bool false) (by decide) rfl⟩

/-- C3: over any run of the drain loop in which the consecutive batches
have sizes at most MAX_REQUESTS_PER_SECOND = 4 (the splice of line 149
takes at most 4 tasks) and tasks are assigned to batches first come first
served (the membership hypothesis on b), at most 4 of K submitted tasks
start execution within any window of 1000 ms, and the fifth task in
submission order (index 4) does not start before the first window's one
second cooldown, which begins when batch 0 settles after d 0 ms, has
elapsed at d 0 + 1000. -/
theorem C3_admission_bound (sizes d b : Nat → Nat) (K t : Nat)
    (hsize : ∀ j, sizes j ≤ 4)
    (hb : ∀ i, i < K → csum sizes (b i) ≤ i ∧ i < csum sizes (b i + 1))
    (hK : 4 < K) :
    ((Finset.range K).filter
        (fun i => t ≤ batchStart d (b i) ∧ batchStart d (b i) < t + 1000)).card ≤ 4 ∧
    d 0 + 1000 ≤ batchStart d (b 4) := by
  constructor
  · rcases Finset.eq_empty_or_nonempty
        ((Finset.range K).filter
          (fun i => t ≤ batchStart d (b i) ∧ batchStart d (b i) < t + 1000)) with
      hS | ⟨i0, hi0⟩
    · rw [hS]
      simp
    · have hmem := Finset.mem_filter.mp hi0
      obtain ⟨hw1, hw2⟩ := hmem.2
      have hsub : ((Finset.range K).filter
          (fun i => t ≤ batchStart d (b i) ∧ batchStart d (b i) < t + 1000)) ⊆
          Finset.Ico (csum sizes (b i0)) (csum sizes (b i0 + 1)) := by
        intro i hi
        have hm := Finset.mem_filter.mp hi
        obtain ⟨hv1, hv2⟩ := hm.2
        have hiK : i < K := Finset.mem_range.mp hm.1
        have heq : b i = b i0 := by
          rcases Nat.lt_trichotomy (b i) (b i0) with hlt | heq | hgt
          · have hg := batchStart_gap d hlt
            omega
          · exact heq
          · have hg := batchStart_gap d hgt
            omega
        rw [Finset.mem_Ico, ← heq]
        exact hb i hiK
      have hcard := Finset.card_le_card hsub
      rw [Nat.card_Ico] at hcard
      have hstep : csum sizes (b i0 + 1) = csum sizes (b i0) + sizes (b i0) := rfl
      have hs := hsize (b i0)
      omega
  · have h4 := hb 4 (by omega)
    have hb4 : 1 ≤ b 4 := by
      by_contra hcon
      have hz : b 4 = 0 := by omega
      rw [hz] at h4
      have hs : csum sizes (0 + 1) = csum sizes 0 + sizes 0 := rfl
      have h0 : csum sizes 0 = 0 := rfl
      have hs0 := hsize 0
      omega
    have hstart1 : batchStart d 1 = d 0 + 1000 := by
      have h2 : batchStart d 1 = batchStart d 0 + d 0 + 1000 := rfl
      have h0 : batchStart d 0 = 0 := rfl
      omega
    rcases Nat.eq_or_lt_of_le hb4 with heq | hlt
    · rw [← heq]
      omega
    · have hg := batchStart_gap d hlt
      omega

/-- C3, witness: six tasks in batches of four, zero batch execution time:
at most four tasks start in the window from 0 to 1000, and the fifth task
does not start before 1000. -/
theorem C3_witness :
    (∀ j, (fun _ : Nat => 4) j ≤ 4) ∧
    (∀ i, i < 6 → csum (fun _ => 4) ((fun i => i / 4) i) ≤ i ∧
      i < csum (fun _ => 4) ((fun i => i / 4) i + 1)) ∧
    4 < 6 ∧
    (((Finset.range 6).filter
        (fun i => 0 ≤ batchStart (fun _ => 0) ((fun i => i / 4) i) ∧
          batchStart (fun _ => 0) ((fun i => i / 4) i) < 0 + 1000)).card ≤ 4 ∧
      (fun _ : Nat => 0) 0 + 1000 ≤ batchStart (fun _ => 0) ((fun i => i / 4) 4)) :=
  ⟨fun _ => le_refl 4, by decide, by decide,
    C3_admission_bound (fun _ => 4) (fun _ => 0) (fun i => i / 4) 6 0
      (fun _ => le_refl 4) (by decide) (by decide)⟩

end JikanProxy
